import Mathlib

set_option maxHeartbeats 1000000

/-!
Shallow embedding of `src/langchain/src/vectorstores/memory.ts`.

The file models, faithfully to the TypeScript source:

* `MemoryVectorStore.similaritySearchVectorWithScore` (lines 98-132), including
  the comparator `(a, b) => (a.similarity > b.similarity ? -1 : 0)` passed to
  `Array.prototype.sort`.  That comparator signals "`a` before `b`" exactly when
  `a.similarity > b.similarity` and treats every other pair as already ordered;
  the JS runtime's stable sort therefore performs a stable descending sort by
  similarity, which is modelled here by `sortBySimilarityDesc` (stable insertion
  placing each element after all previously seen elements of greater-or-equal
  score).
* `loadGenerationsFromJson` / `dumpGenerationsToJson` (lines 228-253).
  `JSON.parse` / `JSON.stringify` are runtime builtins; a serialized payload is
  modelled by `Payload`: either the JSON tree a string parses to (`Payload.parsed`,
  whose raw text is recovered by the renderer `Json.render`) or an unparseable
  string (`Payload.malformed`).
* `MemorySemanticVectorStore` (lines 255-347): `indexName`, `getLlmCache`,
  `clear`, `lookup`, `update`.  The mutable `cacheDict` object is modelled as an
  association list, threaded explicitly through each operation.

Scores and embedding components live in an arbitrary linearly ordered type `K`
(instantiated at `ℚ` for executable witnesses and at `ℝ` for the claims about
the default cosine similarity); the pluggable similarity function, the external
embedding provider and the `md5` digest of `crypto` are parameters of the model
(record `CacheCtx`).
-/

/-- A JSON value, as produced by `JSON.parse`.  Numbers are restricted to
integers (no claim involves numeric payloads). -/
inductive Json where
  | null
  | bool (b : Bool)
  | num (n : Int)
  | str (s : String)
  | arr (elems : List Json)
  | obj (fields : List (String × Json))
deriving Inhabited

/-- First-match association lookup on a JSON object's field list, modelling JS
property access on a parsed object. -/
def jsonField : List (String × Json) → String → Option Json
  | [], _ => none
  | (k, v) :: rest, key => if key = k then some v else jsonField rest key

/-- Property access `j.key`: a field of an object, `none` (JS `undefined`)
otherwise. -/
def Json.getField : Json → String → Option Json
  | .obj fields, key => jsonField fields key
  | _, _ => none

/-- Hex digit for JSON string escapes of control characters. -/
def hexDigit (n : Nat) : Char :=
  if n < 10 then Char.ofNat (48 + n) else Char.ofNat (87 + n)

/-- Escape of a single character inside a JSON string literal, as performed by
`JSON.stringify`. -/
def escapeChar (c : Char) : String :=
  if c = '"' then "\\\""
  else if c = '\\' then "\\\\"
  else if c = '\n' then "\\n"
  else if c = '\r' then "\\r"
  else if c = '\t' then "\\t"
  else if c = '\x08' then "\\b"
  else if c = '\x0c' then "\\f"
  else if c.toNat < 32 then
    String.mk ['\\', 'u', '0', '0', hexDigit (c.toNat / 16), hexDigit (c.toNat % 16)]
  else String.singleton c

/-- A JSON string literal with its surrounding quotes, as `JSON.stringify`
renders it. -/
def escapeJsonString (s : String) : String :=
  "\"" ++ String.join (s.toList.map escapeChar) ++ "\""

mutual

/-- Rendering of a JSON tree back to its source text, modelling
`JSON.stringify`'s output format. -/
def Json.render : Json → String
  | .null => "null"
  | .bool b => if b then "true" else "false"
  | .num n => toString n
  | .str s => escapeJsonString s
  | .arr elems => "[" ++ Json.renderArr elems ++ "]"
  | .obj fields => "\x7b" ++ Json.renderObj fields ++ "\x7d"

/-- Comma-separated rendering of the elements of a JSON array. -/
def Json.renderArr : List Json → String
  | [] => ""
  | [x] => Json.render x
  | x :: y :: xs => Json.render x ++ "," ++ Json.renderArr (y :: xs)

/-- Comma-separated rendering of the fields of a JSON object. -/
def Json.renderObj : List (String × Json) → String
  | [] => ""
  | [(k, v)] => escapeJsonString k ++ ":" ++ Json.render v
  | (k, v) :: f :: fs => escapeJsonString k ++ ":" ++ Json.render v ++ "," ++ Json.renderObj (f :: fs)

end

/-- A JS string carrying a serialized payload: either it parses (to the given
JSON tree, its raw text being the tree's rendering) or it is not valid JSON. -/
inductive Payload where
  | parsed (value : Json)
  | malformed (raw : String)
deriving Inhabited

/-- The raw string a payload stands for. -/
def Payload.raw : Payload → String
  | .parsed v => v.render
  | .malformed s => s

/-- One generation of `schema/index.js` as passed to `update`: only the `text`
field is kept by the cache's serialization. -/
structure Generation where
  text : String
  generationInfo : Option Json := none
deriving Inhabited

/-- The `GenerationChunk` objects produced by `loadGenerationsFromJson`. -/
structure GenerationChunk where
  text : String
  generationInfo : Option Json := none
deriving Inhabited

/-- Decoding of one element of a parsed payload array: the element must have a
string `text` field (`typeof generationDict.text === "string"`); its
`generationInfo` field, if any, is passed through. -/
def decodeGeneration (j : Json) : Option GenerationChunk :=
  match j.getField "text" with
  | some (.str t) => some ⟨t, j.getField "generationInfo"⟩
  | _ => none

/-- Decoding of every element of a parsed payload array; any failing element
aborts the whole decode (the thrown error escapes `results.map`). -/
def decodeGenerations : List Json → Option (List GenerationChunk)
  | [] => some []
  | j :: js =>
    match decodeGeneration j, decodeGenerations js with
    | some g, some gs => some (g :: gs)
    | _, _ => none

/-- The message of the error thrown by `loadGenerationsFromJson`'s `catch`
block: it quotes the offending raw payload string. -/
def decodeErrorMessage (generationsJson : String) : String :=
  "Could not decode json to list of generations: " ++ generationsJson

/-- `loadGenerationsFromJson` (memory.ts lines 228-247): parse the string, map
each element to a `GenerationChunk`, and wrap any failure (parse error, a
non-array value, or an element without a string `text`) into a single decoding
error that quotes the raw payload. -/
def loadGenerationsFromJson (generationsJson : Payload) : Except String (List GenerationChunk) :=
  match generationsJson with
  | .parsed (.arr elems) =>
    match decodeGenerations elems with
    | some gs => .ok gs
    | none => .error (decodeErrorMessage (Json.arr elems).render)
  | .parsed v => .error (decodeErrorMessage v.render)
  | .malformed s => .error (decodeErrorMessage s)

/-- `dumpGenerationsToJson` (memory.ts lines 249-253):
`JSON.stringify(generations.map((generation) => ({ text: generation.text })))` —
every field other than `text` is dropped. -/
def dumpGenerationsToJson (generations : List Generation) : Payload :=
  .parsed (.arr (generations.map fun generation => .obj [("text", .str generation.text)]))

/-- A `Document` of `document.js`: page content plus metadata. -/
structure Document (μ : Type) where
  pageContent : String
  metadata : μ
deriving DecidableEq, Inhabited

/-- A `MemoryVector` (memory.ts lines 14-19). -/
structure MemoryVector (K : Type) (μ : Type) where
  content : String
  embedding : List K
  metadata : μ
deriving DecidableEq, Inhabited

/-- The document reconstructed from a stored vector, as built at memory.ts
lines 108-111 and 123-127. -/
def docOf {K μ : Type} (v : MemoryVector K μ) : Document μ :=
  ⟨v.content, v.metadata⟩

/-- One element of the `searches` array of `similaritySearchVectorWithScore`:
a score paired with the index of the record inside the filtered array. -/
structure SearchEntry (K : Type) where
  similarity : K
  index : Nat
deriving DecidableEq, Inhabited

/-- The `filterFunction` closure (memory.ts lines 103-113): no filter accepts
everything, otherwise the predicate is applied to the reconstructed document. -/
def filterFunction {K μ : Type} (filter : Option (Document μ → Bool))
    (memoryVector : MemoryVector K μ) : Bool :=
  match filter with
  | none => true
  | some f => f (docOf memoryVector)

/-- The `.map((vector, index) => ({similarity, index}))` step, with the running
index made explicit. -/
def scoredFrom {K μ : Type} (simf : List K → List K → K) (query : List K) :
    Nat → List (MemoryVector K μ) → List (SearchEntry K)
  | _, [] => []
  | i, v :: vs => ⟨simf query v.embedding, i⟩ :: scoredFrom simf query (i + 1) vs

/-- Stable insertion of an entry after every previously seen entry of
greater-or-equal score: the position `Array.prototype.sort`'s stable algorithm
assigns under the comparator `(a, b) => (a.similarity > b.similarity ? -1 : 0)`,
whose only ordering signal is strict greater-than. -/
def insertEntry {K : Type} [LinearOrder K] (x : SearchEntry K) :
    List (SearchEntry K) → List (SearchEntry K)
  | [] => [x]
  | y :: ys => if y.similarity < x.similarity then x :: y :: ys else y :: insertEntry x ys

/-- The `.sort((a, b) => (a.similarity > b.similarity ? -1 : 0))` step: a stable
descending sort by similarity, built by inserting the entries left to right. -/
def sortBySimilarityDesc {K : Type} [LinearOrder K] (l : List (SearchEntry K)) :
    List (SearchEntry K) :=
  l.foldl (fun acc x => insertEntry x acc) []

/-- `similaritySearchVectorWithScore` (memory.ts lines 98-132): filter, score
with the store's similarity function, sort descending, take the first `k`, and
rebuild `(Document, score)` pairs by indexing into the filtered array. -/
def similaritySearchVectorWithScore {K μ : Type} [LinearOrder K] [Inhabited μ]
    (simf : List K → List K → K) (memoryVectors : List (MemoryVector K μ))
    (query : List K) (k : Nat) (filter : Option (Document μ → Bool)) :
    List (Document μ × K) :=
  let filteredMemoryVectors := memoryVectors.filter (filterFunction filter)
  let searches := (sortBySimilarityDesc (scoredFrom simf query 0 filteredMemoryVectors)).take k
  searches.map fun s => (docOf (filteredMemoryVectors.getD s.index default), s.similarity)

/-- First-match lookup in the association-list model of a JS object used as a
dictionary (`cacheDict[indexName]` read / `indexName in cacheDict` test). -/
def dget {β : Type} : List (String × β) → String → Option β
  | [], _ => none
  | (k, v) :: rest, key => if key = k then some v else dget rest key

/-- Assignment `cacheDict[indexName] = v`: replace the entry in place, or
append a fresh one. -/
def dset {β : Type} : List (String × β) → String → β → List (String × β)
  | [], key, v => [(key, v)]
  | (k, w) :: rest, key, v =>
    if key = k then (k, v) :: rest else (k, w) :: dset rest key v

/-- Deletion `delete cacheDict[indexName]`: remove every entry under the key. -/
def ddel {β : Type} : List (String × β) → String → List (String × β)
  | [], _ => []
  | (k, w) :: rest, key => if k = key then ddel rest key else (k, w) :: ddel rest key

/-- The metadata packed by `update` (memory.ts lines 335-339). -/
structure CacheMetadata where
  llm_string : String
  prompt : String
  return_val : Payload
deriving Inhabited

/-- The `cacheDict` of a `MemorySemanticVectorStore`: each namespace store is
represented by its `memoryVectors` array. -/
abbrev CacheState (K : Type) := List (String × List (MemoryVector K CacheMetadata))

/-- The external collaborators and fixed configuration of a
`MemorySemanticVectorStore`: the namespace stores' similarity function (the
source fixes it to `ml-distance` cosine, since `getLlmCache` creates every
store through `MemoryVectorStore.fromExistingIndex(this.embeddings)` with no
similarity override), the deterministic embedding provider (`embedQuery` and
`embedDocuments` agree on a single text), the `md5` hex digest of `crypto`, and
the `scoreThreshold` (source default `0.2`). -/
structure CacheCtx (K : Type) where
  similarity : List K → List K → K
  embed : String → List K
  hashFn : String → String
  scoreThreshold : K

namespace MemorySemanticVectorStore

/-- `indexName` (memory.ts lines 271-274). -/
def indexName {K : Type} (ctx : CacheCtx K) (llmKey : String) : String :=
  "cache:" ++ ctx.hashFn llmKey

/-- `getLlmCache` (memory.ts lines 276-301): resolve the namespace store,
creating (and recording) a fresh empty one when the index name is absent.
Returns the updated `cacheDict` together with the resolved store's vectors;
the retriever built around the store is applied separately
(`scoreThresholdRetrieve`, with `minSimilarityScore = scoreThreshold` and
`maxK = 1` per the `scoreThresholdOptions` of lines 281-284). -/
def getLlmCache {K : Type} (ctx : CacheCtx K) (st : CacheState K) (llmKey : String) :
    CacheState K × List (MemoryVector K CacheMetadata) :=
  match dget st (indexName ctx llmKey) with
  | some vecs => (st, vecs)
  | none => (dset st (indexName ctx llmKey) [], [])

/-- Modelled from the spec: the `ScoreThresholdRetriever` of
`retrievers/score_threshold.js` is not part of the sources; section 4.4 of the
specification defines `retrieve(queryText)` as: embed the query text
externally, invoke the search engine with `k = maxK`, then filter out any
result whose score is strictly below `minSimilarityScore` (a result is kept
exactly when it clears the threshold), returning the matching documents. -/
def scoreThresholdRetrieve {K : Type} [LinearOrder K]
    (simf : List K → List K → K) (minSimilarityScore : K) (maxK : Nat)
    (vecs : List (MemoryVector K CacheMetadata)) (query : List K) :
    List (Document CacheMetadata) :=
  ((similaritySearchVectorWithScore simf vecs query maxK none).filter
    fun r => decide (minSimilarityScore ≤ r.2)).map Prod.fst

/-- The documents a `lookup` retrieves through the threshold retriever built by
`getLlmCache` (`minSimilarityScore = scoreThreshold`, `maxK = 1`). -/
def matchedDocuments {K : Type} [LinearOrder K] (ctx : CacheCtx K) (st : CacheState K)
    (prompt llmKey : String) : List (Document CacheMetadata) :=
  scoreThresholdRetrieve ctx.similarity ctx.scoreThreshold 1
    (getLlmCache ctx st llmKey).2 (ctx.embed prompt)

/-- The `for (const document of results)` loop of `lookup` (memory.ts lines
316-323): concatenate the decoded payloads left to right, the first decoding
failure aborting the whole call. -/
def collectGenerations : List (Document CacheMetadata) → Except String (List GenerationChunk)
  | [] => .ok []
  | d :: ds =>
    match loadGenerationsFromJson d.metadata.return_val with
    | .error e => .error e
    | .ok gs =>
      match collectGenerations ds with
      | .error e => .error e
      | .ok rest => .ok (gs ++ rest)

/-- `lookup` (memory.ts lines 312-326): resolve the namespace (creating it when
absent), retrieve the documents clearing the threshold, decode every payload,
and return the concatenation when it is non-empty, `null` otherwise.  The pair
also carries the `cacheDict` as left by `getLlmCache`. -/
def lookup {K : Type} [LinearOrder K] (ctx : CacheCtx K) (st : CacheState K)
    (prompt llmKey : String) :
    Except String (Option (List GenerationChunk)) × CacheState K :=
  match collectGenerations (matchedDocuments ctx st prompt llmKey) with
  | .error e => (.error e, (getLlmCache ctx st llmKey).1)
  | .ok generations =>
    (if 0 < generations.length then .ok (some generations) else .ok none,
      (getLlmCache ctx st llmKey).1)

/-- `update` (memory.ts lines 328-346): resolve/create the namespace store and
append one record whose content is the prompt, whose embedding is the external
embedding of the prompt, and whose metadata packs the key, the prompt and the
serialized generations. -/
def update {K : Type} (ctx : CacheCtx K) (st : CacheState K)
    (prompt llmKey : String) (returnVal : List Generation) : CacheState K :=
  let res := getLlmCache ctx st llmKey
  let metadata : CacheMetadata := ⟨llmKey, prompt, dumpGenerationsToJson returnVal⟩
  dset res.1 (indexName ctx llmKey)
    (res.2 ++ [⟨prompt, ctx.embed prompt, metadata⟩])

/-- `clear` (memory.ts lines 303-310): when the namespace exists, empty its
store (`dropIndex`) and delete the `cacheDict` entry; otherwise do nothing. -/
def clear {K : Type} (ctx : CacheCtx K) (st : CacheState K) (llmKey : String) : CacheState K :=
  match dget st (indexName ctx llmKey) with
  | some _ => ddel st (indexName ctx llmKey)
  | none => st

end MemorySemanticVectorStore

/-- One client call against the semantic cache, for reasoning about reachable
`cacheDict` states. -/
inductive CacheOp where
  | update (prompt llmKey : String) (returnVal : List Generation)
  | lookup (prompt llmKey : String)
  | clear (llmKey : String)

/-- The `cacheDict` after one client call. -/
def stepOp {K : Type} [LinearOrder K] (ctx : CacheCtx K) (st : CacheState K) :
    CacheOp → CacheState K
  | .update prompt llmKey returnVal => MemorySemanticVectorStore.update ctx st prompt llmKey returnVal
  | .lookup prompt llmKey => (MemorySemanticVectorStore.lookup ctx st prompt llmKey).2
  | .clear llmKey => MemorySemanticVectorStore.clear ctx st llmKey

/-- The `cacheDict` after a sequence of client calls. -/
def runTrace {K : Type} [LinearOrder K] (ctx : CacheCtx K) (st : CacheState K)
    (ops : List CacheOp) : CacheState K :=
  ops.foldl (stepOp ctx) st

/-- Whether a trace contains an `update` or `lookup` touching the key's
namespace after the last `clear` of that namespace. -/
def activeAfter {K : Type} (ctx : CacheCtx K) (llmKey : String) (ops : List CacheOp) : Bool :=
  ops.foldl
    (fun acc op =>
      match op with
      | .update _ k _ =>
        if MemorySemanticVectorStore.indexName ctx k = MemorySemanticVectorStore.indexName ctx llmKey
        then true else acc
      | .lookup _ k =>
        if MemorySemanticVectorStore.indexName ctx k = MemorySemanticVectorStore.indexName ctx llmKey
        then true else acc
      | .clear k =>
        if MemorySemanticVectorStore.indexName ctx k = MemorySemanticVectorStore.indexName ctx llmKey
        then false else acc)
    false

/-- Dot product over `a`'s indices, as the `ml-distance` cosine accumulates it
(mismatched lengths are the accepted garbage-result design gap and never arise
in the claims). -/
def dotProduct (a b : List ℝ) : ℝ := (List.zipWith (fun x y => x * y) a b).sum

/-- The default similarity function `ml_distance_similarity.cosine`:
`p / (sqrt(p2) * sqrt(q2))` over exact reals. -/
noncomputable def cosineSimilarity (a b : List ℝ) : ℝ :=
  dotProduct a b / (Real.sqrt (dotProduct a a) * Real.sqrt (dotProduct b b))

/-! ### Properties of the stable descending sort -/

theorem insertEntry_length {K : Type} [LinearOrder K] (x : SearchEntry K)
    (l : List (SearchEntry K)) : (insertEntry x l).length = l.length + 1 := by
  induction l with
  | nil => rfl
  | cons y ys ih =>
    rw [insertEntry]
    split
    · rfl
    · simp [ih]

theorem insertEntry_perm {K : Type} [LinearOrder K] (x : SearchEntry K)
    (l : List (SearchEntry K)) : (insertEntry x l).Perm (x :: l) := by
  induction l with
  | nil => exact .refl _
  | cons y ys ih =>
    rw [insertEntry]
    split
    · exact .refl _
    · exact .trans (.cons y ih) (List.Perm.swap x y ys)

theorem insertEntry_pairwise {K : Type} [LinearOrder K] (x : SearchEntry K)
    {l : List (SearchEntry K)}
    (h : l.Pairwise fun a b => b.similarity ≤ a.similarity) :
    (insertEntry x l).Pairwise fun a b => b.similarity ≤ a.similarity := by
  induction l with
  | nil => simp [insertEntry]
  | cons y ys ih =>
    rw [List.pairwise_cons] at h
    rw [insertEntry]
    by_cases hxy : y.similarity < x.similarity
    · rw [if_pos hxy]
      refine List.pairwise_cons.mpr ⟨?_, List.pairwise_cons.mpr h⟩
      intro z hz
      rcases List.mem_cons.mp hz with rfl | hz'
      · exact hxy.le
      · exact (h.1 z hz').trans hxy.le
    · rw [if_neg hxy]
      refine List.pairwise_cons.mpr ⟨?_, ih h.2⟩
      intro z hz
      rcases List.mem_cons.mp ((insertEntry_perm x ys).mem_iff.mp hz) with rfl | hz'
      · exact not_lt.mp hxy
      · exact h.1 z hz'

theorem insertEntry_filter {K : Type} [LinearOrder K] (x : SearchEntry K) (s : K)
    {l : List (SearchEntry K)}
    (h : l.Pairwise fun a b => b.similarity ≤ a.similarity) :
    (insertEntry x l).filter (fun e => decide (e.similarity = s)) =
      if x.similarity = s then
        l.filter (fun e => decide (e.similarity = s)) ++ [x]
      else l.filter (fun e => decide (e.similarity = s)) := by
  induction l with
  | nil =>
    by_cases hs : x.similarity = s <;> simp [insertEntry, hs]
  | cons y ys ih =>
    rw [List.pairwise_cons] at h
    rw [insertEntry]
    by_cases hxy : y.similarity < x.similarity
    · rw [if_pos hxy]
      by_cases hs : x.similarity = s
      · have hnil : (y :: ys).filter (fun e => decide (e.similarity = s)) = [] := by
          refine List.filter_eq_nil_iff.mpr ?_
          intro a ha
          rcases List.mem_cons.mp ha with rfl | ha'
          · simpa using (ne_of_lt (hs ▸ hxy))
          · simpa using (ne_of_lt (lt_of_le_of_lt (h.1 a ha') (hs ▸ hxy)))
        simp [hs, hnil, List.filter_cons]
      · simp [hs, List.filter_cons]
    · rw [if_neg hxy]
      by_cases hs : x.similarity = s <;>
        by_cases hy : y.similarity = s <;>
          simp [List.filter_cons, ih h.2, hs, hy]

theorem sortAux_length {K : Type} [LinearOrder K] (l : List (SearchEntry K)) :
    ∀ acc : List (SearchEntry K),
      (l.foldl (fun acc x => insertEntry x acc) acc).length = acc.length + l.length := by
  induction l with
  | nil => intro acc; simp
  | cons x xs ih =>
    intro acc
    rw [List.foldl_cons, ih, insertEntry_length]
    simp only [List.length_cons]
    omega

theorem sortAux_pairwise {K : Type} [LinearOrder K] (l : List (SearchEntry K)) :
    ∀ acc : List (SearchEntry K),
      (acc.Pairwise fun a b => b.similarity ≤ a.similarity) →
      ((l.foldl (fun acc x => insertEntry x acc) acc).Pairwise
        fun a b => b.similarity ≤ a.similarity) := by
  induction l with
  | nil => intro acc h; simpa using h
  | cons x xs ih =>
    intro acc h
    rw [List.foldl_cons]
    exact ih _ (insertEntry_pairwise x h)

theorem sortAux_perm {K : Type} [LinearOrder K] (l : List (SearchEntry K)) :
    ∀ acc : List (SearchEntry K),
      (l.foldl (fun acc x => insertEntry x acc) acc).Perm (acc ++ l) := by
  induction l with
  | nil => intro acc; simp
  | cons x xs ih =>
    intro acc
    rw [List.foldl_cons]
    refine (ih (insertEntry x acc)).trans ?_
    have h1 : (insertEntry x acc ++ xs).Perm ((x :: acc) ++ xs) :=
      (insertEntry_perm x acc).append_right xs
    refine h1.trans ?_
    rw [List.cons_append]
    exact (List.perm_middle).symm

theorem sortAux_filter {K : Type} [LinearOrder K] (l : List (SearchEntry K)) (s : K) :
    ∀ acc : List (SearchEntry K),
      (acc.Pairwise fun a b => b.similarity ≤ a.similarity) →
      (l.foldl (fun acc x => insertEntry x acc) acc).filter
          (fun e => decide (e.similarity = s)) =
        acc.filter (fun e => decide (e.similarity = s)) ++
          l.filter (fun e => decide (e.similarity = s)) := by
  induction l with
  | nil => intro acc _; simp
  | cons x xs ih =>
    intro acc h
    rw [List.foldl_cons, ih _ (insertEntry_pairwise x h), insertEntry_filter x s h,
      List.filter_cons]
    by_cases hs : x.similarity = s <;> simp [hs]

theorem sortBySimilarityDesc_length {K : Type} [LinearOrder K] (l : List (SearchEntry K)) :
    (sortBySimilarityDesc l).length = l.length := by
  rw [sortBySimilarityDesc, sortAux_length]
  simp

theorem sortBySimilarityDesc_pairwise {K : Type} [LinearOrder K] (l : List (SearchEntry K)) :
    (sortBySimilarityDesc l).Pairwise fun a b => b.similarity ≤ a.similarity := by
  rw [sortBySimilarityDesc]
  exact sortAux_pairwise l [] (List.Pairwise.nil)

theorem sortBySimilarityDesc_perm {K : Type} [LinearOrder K] (l : List (SearchEntry K)) :
    (sortBySimilarityDesc l).Perm l := by
  rw [sortBySimilarityDesc]
  simpa using sortAux_perm l []

theorem sortBySimilarityDesc_filter {K : Type} [LinearOrder K] (l : List (SearchEntry K))
    (s : K) :
    (sortBySimilarityDesc l).filter (fun e => decide (e.similarity = s)) =
      l.filter (fun e => decide (e.similarity = s)) := by
  rw [sortBySimilarityDesc]
  simpa using sortAux_filter l s [] (List.Pairwise.nil)

theorem scoredFrom_length {K μ : Type} (simf : List K → List K → K) (query : List K) :
    ∀ (i : Nat) (l : List (MemoryVector K μ)),
      (scoredFrom simf query i l).length = l.length := by
  intro i l
  induction l generalizing i with
  | nil => rfl
  | cons v vs ih => rw [scoredFrom]; simp [ih]

theorem getD_eq_headD_drop {α : Type} [Inhabited α] (L : List α) (i : Nat) :
    L.getD i default = (L.drop i).headD default := by
  induction i generalizing L with
  | zero => cases L <;> rfl
  | succ n ih => cases L with
    | nil => rfl
    | cons a as => exact ih as

theorem scoredFrom_map_getD {K μ : Type} [LinearOrder K] [Inhabited μ]
    (simf : List K → List K → K) (query : List K) (l : List (MemoryVector K μ)) :
    ∀ (L : List (MemoryVector K μ)) (i : Nat), L.drop i = l →
      (scoredFrom simf query i l).map
          (fun s => (docOf (L.getD s.index default), s.similarity)) =
        l.map (fun v => (docOf v, simf query v.embedding)) := by
  induction l with
  | nil => intro L i _; rfl
  | cons v vs ih =>
    intro L i hdrop
    rw [scoredFrom, List.map_cons, List.map_cons]
    have h1 : L.getD i default = v := by
      rw [getD_eq_headD_drop, hdrop]; rfl
    have h2 : L.drop (i + 1) = vs := by
      have hdd : (L.drop i).drop 1 = L.drop (i + 1) := by
        rw [List.drop_drop]
      rw [← hdd, hdrop]
      rfl
    rw [ih L (i + 1) h2, h1]

/-! ### Properties of the association-list dictionary -/

theorem dget_dset_self {β : Type} (d : List (String × β)) (k : String) (v : β) :
    dget (dset d k v) k = some v := by
  induction d with
  | nil => simp [dget, dset]
  | cons e rest ih =>
    obtain ⟨k', w⟩ := e
    rw [dset]
    by_cases h : k = k'
    · rw [if_pos h, dget, if_pos h]
    · rw [if_neg h, dget, if_neg h, ih]

theorem dget_dset_ne {β : Type} (d : List (String × β)) (k : String) (v : β)
    (k' : String) (h : k' ≠ k) : dget (dset d k v) k' = dget d k' := by
  induction d with
  | nil => simp [dget, dset, h]
  | cons e rest ih =>
    obtain ⟨k₀, w⟩ := e
    rw [dset]
    by_cases h0 : k = k₀
    · subst h0
      simp only [dget]
      rw [if_neg h, if_neg h]
    · rw [if_neg h0]
      simp only [dget]
      by_cases h1 : k' = k₀
      · rw [if_pos h1, if_pos h1]
      · rw [if_neg h1, if_neg h1, ih]

theorem dget_ddel_self {β : Type} (d : List (String × β)) (k : String) :
    dget (ddel d k) k = none := by
  induction d with
  | nil => rfl
  | cons e rest ih =>
    obtain ⟨k₀, w⟩ := e
    rw [ddel]
    by_cases h : k₀ = k
    · rw [if_pos h, ih]
    · rw [if_neg h, dget, if_neg (fun hh => h hh.symm), ih]

theorem dget_ddel_ne {β : Type} (d : List (String × β)) (k k' : String)
    (h : k' ≠ k) : dget (ddel d k) k' = dget d k' := by
  induction d with
  | nil => rfl
  | cons e rest ih =>
    obtain ⟨k₀, w⟩ := e
    rw [ddel]
    by_cases h0 : k₀ = k
    · subst h0
      rw [if_pos rfl, ih]
      simp only [dget]
      rw [if_neg h]
    · rw [if_neg h0]
      simp only [dget]
      by_cases h1 : k' = k₀
      · rw [if_pos h1, if_pos h1]
      · rw [if_neg h1, if_neg h1, ih]

/-! ### Effects of the semantic-cache operations on the dictionary -/

theorem getLlmCache_snd {K : Type} (ctx : CacheCtx K) (st : CacheState K)
    (llmKey : String) :
    (MemorySemanticVectorStore.getLlmCache ctx st llmKey).2 =
      (dget st (MemorySemanticVectorStore.indexName ctx llmKey)).getD [] := by
  rw [MemorySemanticVectorStore.getLlmCache]
  rcases h : dget st (MemorySemanticVectorStore.indexName ctx llmKey) with _ | vecs <;> simp [h]

theorem dget_getLlmCache_fst_self {K : Type} (ctx : CacheCtx K) (st : CacheState K)
    (llmKey : String) :
    dget (MemorySemanticVectorStore.getLlmCache ctx st llmKey).1
        (MemorySemanticVectorStore.indexName ctx llmKey) =
      some ((dget st (MemorySemanticVectorStore.indexName ctx llmKey)).getD []) := by
  rw [MemorySemanticVectorStore.getLlmCache]
  rcases h : dget st (MemorySemanticVectorStore.indexName ctx llmKey) with _ | vecs
  · simpa using dget_dset_self st _ []
  · simpa using h

theorem dget_getLlmCache_fst_ne {K : Type} (ctx : CacheCtx K) (st : CacheState K)
    (llmKey idx : String) (h : idx ≠ MemorySemanticVectorStore.indexName ctx llmKey) :
    dget (MemorySemanticVectorStore.getLlmCache ctx st llmKey).1 idx = dget st idx := by
  rw [MemorySemanticVectorStore.getLlmCache]
  rcases h0 : dget st (MemorySemanticVectorStore.indexName ctx llmKey) with _ | vecs
  · simpa using dget_dset_ne st _ [] idx h
  · rfl

theorem lookup_snd {K : Type} [LinearOrder K] (ctx : CacheCtx K) (st : CacheState K)
    (prompt llmKey : String) :
    (MemorySemanticVectorStore.lookup ctx st prompt llmKey).2 =
      (MemorySemanticVectorStore.getLlmCache ctx st llmKey).1 := by
  rw [MemorySemanticVectorStore.lookup]
  rcases h : MemorySemanticVectorStore.collectGenerations
      (MemorySemanticVectorStore.matchedDocuments ctx st prompt llmKey) with e | gens <;> simp

theorem dget_update_self {K : Type} (ctx : CacheCtx K) (st : CacheState K)
    (prompt llmKey : String) (returnVal : List Generation) :
    dget (MemorySemanticVectorStore.update ctx st prompt llmKey returnVal)
        (MemorySemanticVectorStore.indexName ctx llmKey) =
      some ((dget st (MemorySemanticVectorStore.indexName ctx llmKey)).getD [] ++
        [⟨prompt, ctx.embed prompt,
          ⟨llmKey, prompt, dumpGenerationsToJson returnVal⟩⟩]) := by
  rw [MemorySemanticVectorStore.update, dget_dset_self, getLlmCache_snd]

theorem dget_update_ne {K : Type} (ctx : CacheCtx K) (st : CacheState K)
    (prompt llmKey : String) (returnVal : List Generation) (idx : String)
    (h : idx ≠ MemorySemanticVectorStore.indexName ctx llmKey) :
    dget (MemorySemanticVectorStore.update ctx st prompt llmKey returnVal) idx =
      dget st idx := by
  rw [MemorySemanticVectorStore.update, dget_dset_ne _ _ _ _ h,
    dget_getLlmCache_fst_ne _ _ _ _ h]

theorem dget_clear_self {K : Type} (ctx : CacheCtx K) (st : CacheState K)
    (llmKey : String) :
    dget (MemorySemanticVectorStore.clear ctx st llmKey)
        (MemorySemanticVectorStore.indexName ctx llmKey) = none := by
  rw [MemorySemanticVectorStore.clear]
  rcases h : dget st (MemorySemanticVectorStore.indexName ctx llmKey) with _ | vecs
  · simpa using h
  · simpa using dget_ddel_self st _

theorem dget_clear_ne {K : Type} (ctx : CacheCtx K) (st : CacheState K)
    (llmKey idx : String) (h : idx ≠ MemorySemanticVectorStore.indexName ctx llmKey) :
    dget (MemorySemanticVectorStore.clear ctx st llmKey) idx = dget st idx := by
  rw [MemorySemanticVectorStore.clear]
  rcases h0 : dget st (MemorySemanticVectorStore.indexName ctx llmKey) with _ | vecs
  · rfl
  · simpa using dget_ddel_ne st _ idx h

theorem clear_of_absent {K : Type} (ctx : CacheCtx K) (st : CacheState K)
    (llmKey : String)
    (h : dget st (MemorySemanticVectorStore.indexName ctx llmKey) = none) :
    MemorySemanticVectorStore.clear ctx st llmKey = st := by
  rw [MemorySemanticVectorStore.clear, h]

/-! ### Behaviour of lookup on trivial namespaces, decoding round trips -/

theorem similaritySearchVectorWithScore_nil {K μ : Type} [LinearOrder K] [Inhabited μ]
    (simf : List K → List K → K) (query : List K) (k : Nat)
    (filter : Option (Document μ → Bool)) :
    similaritySearchVectorWithScore simf [] query k filter = [] := by
  simp [similaritySearchVectorWithScore, sortBySimilarityDesc, scoredFrom]

theorem matchedDocuments_of_getD_nil {K : Type} [LinearOrder K] (ctx : CacheCtx K)
    (st : CacheState K) (prompt llmKey : String)
    (h : (dget st (MemorySemanticVectorStore.indexName ctx llmKey)).getD [] = []) :
    MemorySemanticVectorStore.matchedDocuments ctx st prompt llmKey = [] := by
  rw [MemorySemanticVectorStore.matchedDocuments, getLlmCache_snd, h]
  rfl

theorem lookup_fst_of_getD_nil {K : Type} [LinearOrder K] (ctx : CacheCtx K)
    (st : CacheState K) (prompt llmKey : String)
    (h : (dget st (MemorySemanticVectorStore.indexName ctx llmKey)).getD [] = []) :
    (MemorySemanticVectorStore.lookup ctx st prompt llmKey).1 = .ok none := by
  rw [MemorySemanticVectorStore.lookup, matchedDocuments_of_getD_nil ctx st prompt llmKey h]
  rfl

theorem decodeGenerations_map_text (gens : List Generation) :
    decodeGenerations (gens.map fun g => .obj [("text", .str g.text)]) =
      some (gens.map fun g => ⟨g.text, none⟩) := by
  induction gens with
  | nil => rfl
  | cons g gs ih =>
    rw [List.map_cons, decodeGenerations,
      show decodeGeneration (.obj [("text", .str g.text)]) = some ⟨g.text, none⟩ from rfl,
      ih, List.map_cons]

theorem loadGenerationsFromJson_dump (gens : List Generation) :
    loadGenerationsFromJson (dumpGenerationsToJson gens) =
      .ok (gens.map fun g => ⟨g.text, none⟩) := by
  rw [dumpGenerationsToJson, loadGenerationsFromJson, decodeGenerations_map_text]

theorem loadGenerationsFromJson_error_message (p : Payload) (e : String)
    (h : loadGenerationsFromJson p = .error e) : e = decodeErrorMessage p.raw := by
  rcases p with v | s
  · rcases v with _ | b | n | s | elems | fields <;>
      first
      | (simp [loadGenerationsFromJson, Payload.raw] at h ⊢; omega)
      | (simp [loadGenerationsFromJson, Payload.raw] at h ⊢; exact h.symm)
      | skip
    · rw [loadGenerationsFromJson] at h
      rcases h0 : decodeGenerations elems with _ | gs
      · rw [h0] at h
        simpa [Payload.raw] using h.symm
      · rw [h0] at h
        exact absurd h (by simp)
  · simpa [loadGenerationsFromJson, Payload.raw] using h.symm

theorem collectGenerations_error {ds : List (Document CacheMetadata)}
    (h : ∃ d ∈ ds, ∃ e, loadGenerationsFromJson d.metadata.return_val = .error e) :
    ∃ d ∈ ds, ∃ e, loadGenerationsFromJson d.metadata.return_val = .error e ∧
      MemorySemanticVectorStore.collectGenerations ds = .error e := by
  induction ds with
  | nil => simp at h
  | cons d₀ rest ih =>
    rcases h0 : loadGenerationsFromJson d₀.metadata.return_val with e₀ | gs₀
    · exact ⟨d₀, List.mem_cons_self d₀ rest, e₀, h0,
        by rw [MemorySemanticVectorStore.collectGenerations, h0]⟩
    · have hrest : ∃ d ∈ rest, ∃ e, loadGenerationsFromJson d.metadata.return_val = .error e := by
        rcases h with ⟨d, hd, e, he⟩
        rcases List.mem_cons.mp hd with rfl | hd'
        · rw [h0] at he; exact absurd he (by simp)
        · exact ⟨d, hd', e, he⟩
      rcases ih hrest with ⟨d, hd, e, he, hcol⟩
      refine ⟨d, List.mem_cons_of_mem d₀ hd, e, he, ?_⟩
      rw [MemorySemanticVectorStore.collectGenerations, h0, hcol]

theorem collectGenerations_ok {ds : List (Document CacheMetadata)}
    {gens : List GenerationChunk}
    (h : MemorySemanticVectorStore.collectGenerations ds = .ok gens) :
    ∀ d ∈ ds, ∃ gs, loadGenerationsFromJson d.metadata.return_val = .ok gs := by
  induction ds generalizing gens with
  | nil => simp
  | cons d₀ rest ih =>
    rw [MemorySemanticVectorStore.collectGenerations] at h
    rcases h0 : loadGenerationsFromJson d₀.metadata.return_val with e₀ | gs₀
    · rw [h0] at h; exact absurd h (by simp)
    · rw [h0] at h
      rcases h1 : MemorySemanticVectorStore.collectGenerations rest with e₁ | gs₁
      · rw [h1] at h; exact absurd h (by simp)
      · intro d hd
        rcases List.mem_cons.mp hd with rfl | hd'
        · exact ⟨gs₀, h0⟩
        · exact ih h1 d hd'

/-! ### The default cosine similarity over exact reals -/

theorem dotProduct_self_nonneg (a : List ℝ) : 0 ≤ dotProduct a a := by
  induction a with
  | nil => simp [dotProduct]
  | cons x xs ih =>
    rw [dotProduct, List.zipWith_cons_cons, List.sum_cons]
    have hx : 0 ≤ x * x := mul_self_nonneg x
    have : 0 ≤ (List.zipWith (fun x y => x * y) xs xs).sum := ih
    linarith

theorem cosineSimilarity_self (a : List ℝ) (h : dotProduct a a ≠ 0) :
    cosineSimilarity a a = 1 := by
  rw [cosineSimilarity, Real.mul_self_sqrt (dotProduct_self_nonneg a), div_self h]

/-! ### Claim theorems -/

/-- C1: for every store contents, query embedding, `k ≥ 0` and (possibly
absent) filter predicate, `similaritySearchVectorWithScore` returns at most
`min k  filteredCount` result pairs, and the returned sequence is sorted by
non-increasing similarity score. -/
theorem c1_search_bounded_and_sorted {K μ : Type} [LinearOrder K] [Inhabited μ]
    (simf : List K → List K → K) (memoryVectors : List (MemoryVector K μ))
    (query : List K) (k : Nat) (filter : Option (Document μ → Bool)) :
    (similaritySearchVectorWithScore simf memoryVectors query k filter).length ≤
        min k (memoryVectors.filter (filterFunction filter)).length ∧
      (similaritySearchVectorWithScore simf memoryVectors query k filter).Pairwise
        (fun p q => q.2 ≤ p.2) := by
  constructor
  · simp only [similaritySearchVectorWithScore, List.length_map, List.length_take,
      sortBySimilarityDesc_length, scoredFrom_length]
    exact le_refl _
  · simp only [similaritySearchVectorWithScore]
    refine List.Pairwise.map _ (fun a b h => h) ?_
    exact List.Pairwise.sublist (List.take_sublist _ _) (sortBySimilarityDesc_pairwise _)

/-- C2: in `similaritySearchVectorWithScore`, records with equal similarity
scores keep their input (insertion) order in the output — the scored entries of
any given score appear in the sorted sequence exactly as they appear in the
scored input — and in particular, for a store of three records scored
`[0.9, 0.95, 0.95]` at indices 0, 1, 2 and `k = 1`, the single returned result
is the record at index 1, not index 2. -/
theorem c2_ties_keep_input_order {K μ : Type} [LinearOrder K] :
    (∀ (simf : List K → List K → K) (query : List K)
        (fvecs : List (MemoryVector K μ)) (s : K),
        (sortBySimilarityDesc (scoredFrom simf query 0 fvecs)).filter
            (fun e => decide (e.similarity = s)) =
          (scoredFrom simf query 0 fvecs).filter (fun e => decide (e.similarity = s))) ∧
      similaritySearchVectorWithScore (fun _ e => e.headD 0)
          [⟨"r0", [(9 : ℚ)/10], ()⟩, ⟨"r1", [19/20], ()⟩, ⟨"r2", [19/20], ()⟩]
          [] 1 none =
        [(⟨"r1", ()⟩, 19/20)] := by
  constructor
  · intro simf query fvecs s
    exact sortBySimilarityDesc_filter _ s
  · have h1 : ((9 : ℚ)/10) < 19/20 := by norm_num
    have h2 : ¬ ((19 : ℚ)/20 < 19/20) := lt_irrefl _
    norm_num [similaritySearchVectorWithScore, sortBySimilarityDesc, scoredFrom,
      insertEntry, filterFunction, docOf, List.getD, List.headD, h1, h2]

/-- C9: if `k = 0` or the store is empty, `similaritySearchVectorWithScore`
returns the empty sequence; and if `k` is at least the number of records
passing the filter, it returns exactly all filtered records, each paired with
its score. -/
theorem c9_search_boundary_cases {K μ : Type} [LinearOrder K] [Inhabited μ]
    (simf : List K → List K → K) (memoryVectors : List (MemoryVector K μ))
    (query : List K) (k : Nat) (filter : Option (Document μ → Bool)) :
    ((k = 0 ∨ memoryVectors = []) →
        similaritySearchVectorWithScore simf memoryVectors query k filter = []) ∧
      ((memoryVectors.filter (filterFunction filter)).length ≤ k →
        (similaritySearchVectorWithScore simf memoryVectors query k filter).Perm
          ((memoryVectors.filter (filterFunction filter)).map
            (fun v => (docOf v, simf query v.embedding)))) := by
  constructor
  · rintro (rfl | rfl)
    · simp [similaritySearchVectorWithScore]
    · exact similaritySearchVectorWithScore_nil simf query k filter
  · intro h
    rw [similaritySearchVectorWithScore]
    have hlen : (sortBySimilarityDesc (scoredFrom simf query 0
        (memoryVectors.filter (filterFunction filter)))).length ≤ k := by
      rw [sortBySimilarityDesc_length, scoredFrom_length]
      exact h
    rw [List.take_of_length_le hlen]
    have hperm := (sortBySimilarityDesc_perm
      (scoredFrom simf query 0 (memoryVectors.filter (filterFunction filter)))).map
        (fun s => (docOf ((memoryVectors.filter (filterFunction filter)).getD s.index default),
          s.similarity))
    refine hperm.trans ?_
    rw [scoredFrom_map_getD simf query _ _ 0 (List.drop_zero _)]

/-- C8: for every prompt, key and value list, `update` appends exactly one
record to the key's namespace store, with content equal to the prompt and
metadata containing the key, the prompt, and a serialization of the value that
keeps only each result's `text` field, dropping every other field. -/
theorem c8_update_appends_text_only_record {K : Type} (ctx : CacheCtx K)
    (st : CacheState K) (prompt llmKey : String) (returnVal : List Generation) :
    dget (MemorySemanticVectorStore.update ctx st prompt llmKey returnVal)
        (MemorySemanticVectorStore.indexName ctx llmKey) =
      some ((dget st (MemorySemanticVectorStore.indexName ctx llmKey)).getD [] ++
        [⟨prompt, ctx.embed prompt,
          ⟨llmKey, prompt,
            .parsed (.arr (returnVal.map fun g => .obj [("text", .str g.text)]))⟩⟩]) := by
  rw [dget_update_self, dumpGenerationsToJson]

/-- C6: `clear` removes the key's namespace entry from the cache mapping
entirely, and any subsequent `lookup` with any prompt against that key returns
`null`, even if records existed in the namespace before the clear. -/
theorem c6_clear_then_lookup_null {K : Type} [LinearOrder K] (ctx : CacheCtx K)
    (st : CacheState K) (llmKey prompt : String) :
    dget (MemorySemanticVectorStore.clear ctx st llmKey)
        (MemorySemanticVectorStore.indexName ctx llmKey) = none ∧
      (MemorySemanticVectorStore.lookup ctx
          (MemorySemanticVectorStore.clear ctx st llmKey) prompt llmKey).1 = .ok none := by
  refine ⟨dget_clear_self ctx st llmKey, ?_⟩
  apply lookup_fst_of_getD_nil
  rw [dget_clear_self]
  rfl

/-- C10: `clear keyA` leaves every other namespace's entry unchanged, and when
`keyA`'s namespace is absent it leaves the entire cache state unchanged (a
no-op, not an error). -/
theorem c10_clear_frame {K : Type} (ctx : CacheCtx K) (st : CacheState K)
    (keyA keyB : String) :
    (MemorySemanticVectorStore.indexName ctx keyA ≠
        MemorySemanticVectorStore.indexName ctx keyB →
      dget (MemorySemanticVectorStore.clear ctx st keyA)
          (MemorySemanticVectorStore.indexName ctx keyB) =
        dget st (MemorySemanticVectorStore.indexName ctx keyB)) ∧
      (dget st (MemorySemanticVectorStore.indexName ctx keyA) = none →
        MemorySemanticVectorStore.clear ctx st keyA = st) := by
  exact ⟨fun h => dget_clear_ne ctx st keyA _ (fun hh => h hh.symm),
    clear_of_absent ctx st keyA⟩

/-- Witness for C10 at a concrete two-namespace state and at a state missing
the cleared namespace. -/
theorem c10_clear_frame_witness :
    (dget (MemorySemanticVectorStore.clear ⟨fun _ _ => (0 : ℚ), fun _ => [], id, 0⟩
          ([("cache:a", []), ("cache:b", [])] : CacheState ℚ) "a") "cache:b" =
        dget ([("cache:a", []), ("cache:b", [])] : CacheState ℚ) "cache:b") ∧
      MemorySemanticVectorStore.clear ⟨fun _ _ => (0 : ℚ), fun _ => [], id, 0⟩
          ([] : CacheState ℚ) "a" = [] := by
  constructor
  · exact (c10_clear_frame _ _ "a" "b").1 (by decide)
  · exact (c10_clear_frame _ _ "a" "b").2 rfl

theorem dget_update_isSome {K : Type} (ctx : CacheCtx K) (st : CacheState K)
    (p k : String) (v : List Generation) (idx : String) :
    (dget (MemorySemanticVectorStore.update ctx st p k v) idx).isSome =
      if MemorySemanticVectorStore.indexName ctx k = idx then true
      else (dget st idx).isSome := by
  by_cases h : MemorySemanticVectorStore.indexName ctx k = idx
  · rw [if_pos h, ← h, dget_update_self]
    rfl
  · rw [if_neg h, dget_update_ne ctx st p k v _ (fun hh => h hh.symm)]

theorem dget_lookup_snd_isSome {K : Type} [LinearOrder K] (ctx : CacheCtx K)
    (st : CacheState K) (p k : String) (idx : String) :
    (dget (MemorySemanticVectorStore.lookup ctx st p k).2 idx).isSome =
      if MemorySemanticVectorStore.indexName ctx k = idx then true
      else (dget st idx).isSome := by
  by_cases h : MemorySemanticVectorStore.indexName ctx k = idx
  · rw [lookup_snd, if_pos h, ← h, dget_getLlmCache_fst_self]
    rfl
  · rw [lookup_snd, if_neg h, dget_getLlmCache_fst_ne ctx st k _ (fun hh => h hh.symm)]

theorem dget_clear_isSome {K : Type} (ctx : CacheCtx K) (st : CacheState K)
    (k : String) (idx : String) :
    (dget (MemorySemanticVectorStore.clear ctx st k) idx).isSome =
      if MemorySemanticVectorStore.indexName ctx k = idx then false
      else (dget st idx).isSome := by
  by_cases h : MemorySemanticVectorStore.indexName ctx k = idx
  · rw [if_pos h, ← h, dget_clear_self]
    rfl
  · rw [if_neg h, dget_clear_ne ctx st k _ (fun hh => h hh.symm)]

theorem runTrace_isSome_eq_foldl {K : Type} [LinearOrder K] (ctx : CacheCtx K)
    (llmKey : String) (ops : List CacheOp) :
    ∀ st : CacheState K,
      (dget (runTrace ctx st ops) (MemorySemanticVectorStore.indexName ctx llmKey)).isSome =
        ops.foldl
          (fun acc op =>
            match op with
            | .update _ k _ =>
              if MemorySemanticVectorStore.indexName ctx k =
                  MemorySemanticVectorStore.indexName ctx llmKey then true else acc
            | .lookup _ k =>
              if MemorySemanticVectorStore.indexName ctx k =
                  MemorySemanticVectorStore.indexName ctx llmKey then true else acc
            | .clear k =>
              if MemorySemanticVectorStore.indexName ctx k =
                  MemorySemanticVectorStore.indexName ctx llmKey then false else acc)
          ((dget st (MemorySemanticVectorStore.indexName ctx llmKey)).isSome) := by
  induction ops with
  | nil => intro st; rfl
  | cons op rest ih =>
    intro st
    rw [runTrace, List.foldl_cons, List.foldl_cons, ← runTrace,
      ih (stepOp ctx st op)]
    congr 1
    rcases op with ⟨p, k, v⟩ | ⟨p, k⟩ | k
    · exact dget_update_isSome ctx st p k v _
    · exact dget_lookup_snd_isSome ctx st p k _
    · exact dget_clear_isSome ctx st k _

/-- C3 (amended): starting from the empty cache, for every trace of client
calls and every key, the key's namespace store exists in the cache mapping if
and only if at least one `update` or `lookup` touching that namespace has
occurred since the last `clear` of it — in particular a `lookup` on an absent
namespace does create (and record) a fresh empty store. -/
theorem c3_amended_store_exists_iff_touched {K : Type} [LinearOrder K]
    (ctx : CacheCtx K) (ops : List CacheOp) (llmKey : String) :
    (dget (runTrace ctx [] ops)
        (MemorySemanticVectorStore.indexName ctx llmKey)).isSome =
      activeAfter ctx llmKey ops := by
  rw [activeAfter, runTrace_isSome_eq_foldl ctx llmKey ops []]
  rfl

/-- C3 counterexample: a single `lookup` on the empty cache — a trace that
contains no `update` at all — leaves the key's namespace store present (and
empty) in the cache mapping, contradicting the claim that the store exists only
when an update has occurred and that a lookup on an absent namespace does not
make the store exist. -/
theorem c3_counterexample_lookup_creates_store :
    dget (runTrace (⟨fun _ _ => (0 : ℚ), fun _ => [], id, 0⟩ : CacheCtx ℚ) []
        [CacheOp.lookup "p" "k"]) "cache:k" = some [] := rfl

/-- C7: whenever `lookup` completes, it returns `null` exactly when the
concatenation of the decoded payload entries across the matched records is
empty; in particular a namespace whose only record is not sufficiently similar
and a matched record whose payload decodes to the empty list both yield
`null`, indistinguishably for the caller. -/
theorem c7_lookup_null_iff_empty_concatenation {K : Type} [LinearOrder K]
    (ctx : CacheCtx K) (st : CacheState K) (prompt llmKey : String) :
    (∀ r, (MemorySemanticVectorStore.lookup ctx st prompt llmKey).1 = .ok r →
        (r = none ↔
          MemorySemanticVectorStore.collectGenerations
            (MemorySemanticVectorStore.matchedDocuments ctx st prompt llmKey) = .ok [])) ∧
      (MemorySemanticVectorStore.lookup (⟨fun _ _ => 0, fun _ => [], id, 1⟩ : CacheCtx ℚ)
          [("cache:k", [⟨"p", [], ⟨"k", "p", dumpGenerationsToJson [⟨"A", none⟩]⟩⟩])]
          "q" "k").1 = .ok none ∧
      (MemorySemanticVectorStore.lookup (⟨fun _ _ => 1, fun _ => [], id, 0⟩ : CacheCtx ℚ)
          [("cache:k", [⟨"p", [], ⟨"k", "p", dumpGenerationsToJson []⟩⟩])]
          "q" "k").1 = .ok none := by
  refine ⟨?_, rfl, rfl⟩
  intro r hr
  rw [MemorySemanticVectorStore.lookup] at hr
  rcases hcol : MemorySemanticVectorStore.collectGenerations
      (MemorySemanticVectorStore.matchedDocuments ctx st prompt llmKey) with e | gens
  · rw [hcol] at hr
    have hr' : (Except.error e : Except String (Option (List GenerationChunk))) = .ok r := hr
    exact absurd hr' (by simp)
  · rw [hcol] at hr
    have hr' : (if 0 < gens.length then
        (Except.ok (some gens) : Except String (Option (List GenerationChunk)))
        else .ok none) = .ok r := hr
    by_cases hlen : 0 < gens.length
    · rw [if_pos hlen] at hr'
      have hrr : r = some gens := by simpa using hr'.symm
      subst hrr
      constructor
      · intro hcon
        exact absurd hcon (by simp)
      · intro hcon
        have hnil : gens = [] := by simpa using hcon
        subst hnil
        simp at hlen
    · rw [if_neg hlen] at hr'
      have hrr : r = none := by simpa using hr'.symm
      subst hrr
      have hnil : gens = [] := List.length_eq_zero.mp (by omega)
      subst hnil
      simp

/-- Witness for C7: a concrete successful lookup with a non-empty decoded
concatenation, at which the equivalence is discharged. -/
theorem c7_lookup_null_iff_empty_concatenation_witness :
    some [({ text := "A", generationInfo := none } : GenerationChunk)] = none ↔
      MemorySemanticVectorStore.collectGenerations
        (MemorySemanticVectorStore.matchedDocuments
          (⟨fun _ _ => 1, fun _ => [], id, 0⟩ : CacheCtx ℚ)
          [("cache:k", [⟨"p", [], ⟨"k", "p", dumpGenerationsToJson [⟨"A", none⟩]⟩⟩])]
          "q" "k") = .ok [] :=
  (c7_lookup_null_iff_empty_concatenation
      (⟨fun _ _ => 1, fun _ => [], id, 0⟩ : CacheCtx ℚ)
      [("cache:k", [⟨"p", [], ⟨"k", "p", dumpGenerationsToJson [⟨"A", none⟩]⟩⟩])]
      "q" "k").1 (some [{ text := "A", generationInfo := none }]) rfl

/-- C4: whenever some record matched by a lookup has a payload that fails to
parse as JSON or whose parsed array has an element without a string `text`
field, the lookup fails with the decoding error quoting the offending raw
payload string — the error propagates, and the call does not return `null` or
skip the malformed entry. -/
theorem c4_malformed_payload_fails_lookup {K : Type} [LinearOrder K]
    (ctx : CacheCtx K) (st : CacheState K) (prompt llmKey : String)
    (h : ∃ d ∈ MemorySemanticVectorStore.matchedDocuments ctx st prompt llmKey,
      ∃ e, loadGenerationsFromJson d.metadata.return_val = .error e) :
    ∃ d ∈ MemorySemanticVectorStore.matchedDocuments ctx st prompt llmKey,
      loadGenerationsFromJson d.metadata.return_val =
          .error (decodeErrorMessage d.metadata.return_val.raw) ∧
        (MemorySemanticVectorStore.lookup ctx st prompt llmKey).1 =
          .error (decodeErrorMessage d.metadata.return_val.raw) := by
  rcases collectGenerations_error h with ⟨d, hd, e, he, hcol⟩
  have hmsg := loadGenerationsFromJson_error_message _ _ he
  subst hmsg
  refine ⟨d, hd, he, ?_⟩
  rw [MemorySemanticVectorStore.lookup, hcol]

/-- Witness for C4: a concrete matched record whose payload is not valid JSON
makes the whole lookup fail with the quoting decoding error. -/
theorem c4_malformed_payload_fails_lookup_witness :
    ∃ d ∈ MemorySemanticVectorStore.matchedDocuments
        (⟨fun _ _ => 1, fun _ => [], id, 0⟩ : CacheCtx ℚ)
        [("cache:k", [⟨"p", [], ⟨"k", "p", .malformed "oops"⟩⟩])] "q" "k",
      loadGenerationsFromJson d.metadata.return_val =
          .error (decodeErrorMessage d.metadata.return_val.raw) ∧
        (MemorySemanticVectorStore.lookup
            (⟨fun _ _ => 1, fun _ => [], id, 0⟩ : CacheCtx ℚ)
            [("cache:k", [⟨"p", [], ⟨"k", "p", .malformed "oops"⟩⟩])] "q" "k").1 =
          .error (decodeErrorMessage d.metadata.return_val.raw) :=
  c4_malformed_payload_fails_lookup _ _ "q" "k"
    ⟨⟨"p", ⟨"k", "p", .malformed "oops"⟩⟩,
      by
        rw [show MemorySemanticVectorStore.matchedDocuments
            (⟨fun _ _ => 1, fun _ => [], id, 0⟩ : CacheCtx ℚ)
            [("cache:k", [⟨"p", [], ⟨"k", "p", .malformed "oops"⟩⟩])] "q" "k" =
          [⟨"p", ⟨"k", "p", .malformed "oops"⟩⟩] from rfl]
        exact List.mem_singleton_self _,
      decodeErrorMessage "oops", rfl⟩

theorem similaritySearchVectorWithScore_singleton {K μ : Type} [LinearOrder K]
    [Inhabited μ] (simf : List K → List K → K) (v : MemoryVector K μ)
    (query : List K) :
    similaritySearchVectorWithScore simf [v] query 1 none =
      [(docOf v, simf query v.embedding)] := by
  simp [similaritySearchVectorWithScore, filterFunction, scoredFrom,
    sortBySimilarityDesc, insertEntry, List.getD]

theorem similaritySearchVectorWithScore_pair_tie {K μ : Type} [LinearOrder K]
    [Inhabited μ] (simf : List K → List K → K) (v0 v1 : MemoryVector K μ)
    (query : List K)
    (h : ¬ simf query v0.embedding < simf query v1.embedding) :
    similaritySearchVectorWithScore simf [v0, v1] query 1 none =
      [(docOf v0, simf query v0.embedding)] := by
  simp [similaritySearchVectorWithScore, filterFunction, scoredFrom,
    sortBySimilarityDesc, insertEntry, List.getD, h]

theorem matchedDocuments_single {K : Type} [LinearOrder K] (ctx : CacheCtx K)
    (st : CacheState K) (prompt llmKey : String) (v : MemoryVector K CacheMetadata)
    (hst : dget st (MemorySemanticVectorStore.indexName ctx llmKey) = some [v])
    (hsc : ctx.scoreThreshold ≤ ctx.similarity (ctx.embed prompt) v.embedding) :
    MemorySemanticVectorStore.matchedDocuments ctx st prompt llmKey = [docOf v] := by
  rw [MemorySemanticVectorStore.matchedDocuments, getLlmCache_snd, hst]
  show MemorySemanticVectorStore.scoreThresholdRetrieve _ _ 1 [v] _ = _
  rw [MemorySemanticVectorStore.scoreThresholdRetrieve,
    similaritySearchVectorWithScore_singleton]
  simp [hsc]

theorem matchedDocuments_single_below {K : Type} [LinearOrder K] (ctx : CacheCtx K)
    (st : CacheState K) (prompt llmKey : String) (v : MemoryVector K CacheMetadata)
    (hst : dget st (MemorySemanticVectorStore.indexName ctx llmKey) = some [v])
    (hsc : ¬ ctx.scoreThreshold ≤ ctx.similarity (ctx.embed prompt) v.embedding) :
    MemorySemanticVectorStore.matchedDocuments ctx st prompt llmKey = [] := by
  rw [MemorySemanticVectorStore.matchedDocuments, getLlmCache_snd, hst]
  show MemorySemanticVectorStore.scoreThresholdRetrieve _ _ 1 [v] _ = _
  rw [MemorySemanticVectorStore.scoreThresholdRetrieve,
    similaritySearchVectorWithScore_singleton]
  simp [hsc]

theorem matchedDocuments_pair_tie {K : Type} [LinearOrder K] (ctx : CacheCtx K)
    (st : CacheState K) (prompt llmKey : String)
    (v0 v1 : MemoryVector K CacheMetadata)
    (hst : dget st (MemorySemanticVectorStore.indexName ctx llmKey) = some [v0, v1])
    (htie : ¬ ctx.similarity (ctx.embed prompt) v0.embedding <
      ctx.similarity (ctx.embed prompt) v1.embedding)
    (hsc : ctx.scoreThreshold ≤ ctx.similarity (ctx.embed prompt) v0.embedding) :
    MemorySemanticVectorStore.matchedDocuments ctx st prompt llmKey = [docOf v0] := by
  rw [MemorySemanticVectorStore.matchedDocuments, getLlmCache_snd, hst]
  show MemorySemanticVectorStore.scoreThresholdRetrieve _ _ 1 [v0, v1] _ = _
  rw [MemorySemanticVectorStore.scoreThresholdRetrieve,
    similaritySearchVectorWithScore_pair_tie _ _ _ _ htie]
  simp [hsc]

theorem collectGenerations_single (d : Document CacheMetadata)
    {gs : List GenerationChunk}
    (h : loadGenerationsFromJson d.metadata.return_val = .ok gs) :
    MemorySemanticVectorStore.collectGenerations [d] = .ok gs := by
  simp [MemorySemanticVectorStore.collectGenerations, h]

theorem lookup_fst_eq_of_matched_single {K : Type} [LinearOrder K]
    (ctx : CacheCtx K) (st : CacheState K) (prompt llmKey : String)
    (d : Document CacheMetadata) (gs : List GenerationChunk)
    (hm : MemorySemanticVectorStore.matchedDocuments ctx st prompt llmKey = [d])
    (hload : loadGenerationsFromJson d.metadata.return_val = .ok gs)
    (hne : gs ≠ []) :
    (MemorySemanticVectorStore.lookup ctx st prompt llmKey).1 = .ok (some gs) := by
  rw [MemorySemanticVectorStore.lookup, hm, collectGenerations_single d hload]
  show (if 0 < gs.length then
      (Except.ok (some gs) : Except String (Option (List GenerationChunk)))
      else .ok none) = .ok (some gs)
  rw [if_pos (List.length_pos.mpr hne)]

theorem lookup_fst_of_matched_nil {K : Type} [LinearOrder K]
    (ctx : CacheCtx K) (st : CacheState K) (prompt llmKey : String)
    (hm : MemorySemanticVectorStore.matchedDocuments ctx st prompt llmKey = []) :
    (MemorySemanticVectorStore.lookup ctx st prompt llmKey).1 = .ok none := by
  rw [MemorySemanticVectorStore.lookup, hm]
  rfl

/-- C5 (amended): for every key and prompt, with a deterministic embedding
provider, the default cosine similarity, a score threshold strictly below 1,
and additionally (i) a nonzero embedding of the prompt and (ii) no earlier
record in the key's namespace store, `update(prompt, key, [{text: X}])`
immediately followed by `lookup(prompt, key)` returns a non-null sequence
containing an entry whose text equals `X`.  The two extra hypotheses are
forced: a zero embedding makes the self-similarity degenerate (`0/0`; `NaN` in
the JS runtime) so the single candidate fails to clear the threshold, and an
earlier record tying at the top score is preferred by the stable sort under
`maxK = 1`, crowding out the fresh record. -/
theorem c5_amended_roundtrip {st : CacheState ℝ} (ctx : CacheCtx ℝ)
    (prompt llmKey txt : String) (info : Option Json)
    (hsim : ctx.similarity = cosineSimilarity)
    (hthr : ctx.scoreThreshold < 1)
    (hnz : dotProduct (ctx.embed prompt) (ctx.embed prompt) ≠ 0)
    (hempty : (dget st (MemorySemanticVectorStore.indexName ctx llmKey)).getD [] = []) :
    ∃ gens,
      (MemorySemanticVectorStore.lookup ctx
          (MemorySemanticVectorStore.update ctx st prompt llmKey [⟨txt, info⟩])
          prompt llmKey).1 = .ok (some gens) ∧
        ∃ g ∈ gens, g.text = txt := by
  have hst : dget (MemorySemanticVectorStore.update ctx st prompt llmKey [⟨txt, info⟩])
      (MemorySemanticVectorStore.indexName ctx llmKey) =
        some [⟨prompt, ctx.embed prompt,
          ⟨llmKey, prompt, dumpGenerationsToJson [⟨txt, info⟩]⟩⟩] := by
    rw [dget_update_self, hempty]
    rfl
  have hsc : ctx.scoreThreshold ≤
      ctx.similarity (ctx.embed prompt) (ctx.embed prompt) := by
    rw [hsim, cosineSimilarity_self _ hnz]
    exact hthr.le
  have hm := matchedDocuments_single ctx _ prompt llmKey _ hst hsc
  have hload : loadGenerationsFromJson
      (dumpGenerationsToJson [⟨txt, info⟩]) = .ok [⟨txt, none⟩] := by
    rw [loadGenerationsFromJson_dump]
    rfl
  exact ⟨[⟨txt, none⟩],
    lookup_fst_eq_of_matched_single ctx _ prompt llmKey _ _ hm hload (by simp),
    ⟨txt, none⟩, List.mem_singleton_self _, rfl⟩

/-- Witness for the amended C5 at a concrete nonzero one-dimensional embedding
and threshold one half, starting from the empty cache. -/
theorem c5_amended_roundtrip_witness :
    ∃ gens,
      (MemorySemanticVectorStore.lookup
          (⟨cosineSimilarity, fun _ => [1], id, 1/2⟩ : CacheCtx ℝ)
          (MemorySemanticVectorStore.update
            (⟨cosineSimilarity, fun _ => [1], id, 1/2⟩ : CacheCtx ℝ)
            [] "p" "k" [⟨"X", none⟩])
          "p" "k").1 = .ok (some gens) ∧
        ∃ g ∈ gens, g.text = "X" :=
  c5_amended_roundtrip (⟨cosineSimilarity, fun _ => [1], id, 1/2⟩ : CacheCtx ℝ)
    "p" "k" "X" none rfl (by norm_num)
    (by norm_num [dotProduct]) rfl

/-- C5 counterexample: with the default cosine similarity and threshold one
half (below 1) and a deterministic embedder, the round trip as claimed fails in
two concrete situations.  (a) The namespace already holds a record for the same
prompt with payload text `"Y"`: after `update(.., [{text: "X"}])` both records
score 1 against the prompt, the stable sort keeps the earlier record first,
`maxK = 1` keeps only it, and `lookup` returns the `"Y"` entry — no entry with
text `"X"`.  (b) The embedder sends every text to the zero vector: the
self-similarity is the degenerate `0/0` (`NaN` in the JS runtime, `0` in exact
arithmetic), the only candidate does not clear the threshold, and the lookup
right after the update returns `null`. -/
theorem c5_counterexample_roundtrip_fails :
    (MemorySemanticVectorStore.lookup
        (⟨cosineSimilarity, fun _ => [1], id, 1/2⟩ : CacheCtx ℝ)
        (MemorySemanticVectorStore.update
          (⟨cosineSimilarity, fun _ => [1], id, 1/2⟩ : CacheCtx ℝ)
          [("cache:k", [⟨"p", [1],
            ⟨"k", "p", dumpGenerationsToJson [⟨"Y", none⟩]⟩⟩])]
          "p" "k" [⟨"X", none⟩])
        "p" "k").1 = .ok (some [⟨"Y", none⟩]) ∧
      "Y" ≠ "X" ∧
      (MemorySemanticVectorStore.lookup
          (⟨cosineSimilarity, fun _ => [0], id, 1/2⟩ : CacheCtx ℝ)
          (MemorySemanticVectorStore.update
            (⟨cosineSimilarity, fun _ => [0], id, 1/2⟩ : CacheCtx ℝ)
            [] "p" "k" [⟨"X", none⟩])
          "p" "k").1 = .ok none := by
  have hcos1 : cosineSimilarity [1] [1] = 1 :=
    cosineSimilarity_self [1] (by norm_num [dotProduct])
  have hcos0 : cosineSimilarity [0] [0] = 0 := by
    simp [cosineSimilarity, dotProduct]
  refine ⟨?_, by decide, ?_⟩
  · have hst : dget (MemorySemanticVectorStore.update
        (⟨cosineSimilarity, fun _ => [1], id, 1/2⟩ : CacheCtx ℝ)
        [("cache:k", [⟨"p", [1], ⟨"k", "p", dumpGenerationsToJson [⟨"Y", none⟩]⟩⟩])]
        "p" "k" [⟨"X", none⟩])
        (MemorySemanticVectorStore.indexName
          (⟨cosineSimilarity, fun _ => [1], id, 1/2⟩ : CacheCtx ℝ) "k") =
      some [⟨"p", [1], ⟨"k", "p", dumpGenerationsToJson [⟨"Y", none⟩]⟩⟩,
        ⟨"p", [1], ⟨"k", "p", dumpGenerationsToJson [⟨"X", none⟩]⟩⟩] := by
      rw [dget_update_self]
      rfl
    have hm := matchedDocuments_pair_tie
      (⟨cosineSimilarity, fun _ => [1], id, 1/2⟩ : CacheCtx ℝ) _ "p" "k" _ _ hst
      (by
        show ¬ cosineSimilarity [1] [1] < cosineSimilarity [1] [1]
        exact lt_irrefl _)
      (by
        show (1 : ℝ)/2 ≤ cosineSimilarity [1] [1]
        rw [hcos1]
        norm_num)
    refine lookup_fst_eq_of_matched_single _ _ "p" "k" _ _ hm ?_ (by simp)
    show loadGenerationsFromJson (dumpGenerationsToJson [⟨"Y", none⟩]) = _
    rw [loadGenerationsFromJson_dump]
    rfl
  · have hst : dget (MemorySemanticVectorStore.update
        (⟨cosineSimilarity, fun _ => [0], id, 1/2⟩ : CacheCtx ℝ)
        [] "p" "k" [⟨"X", none⟩])
        (MemorySemanticVectorStore.indexName
          (⟨cosineSimilarity, fun _ => [0], id, 1/2⟩ : CacheCtx ℝ) "k") =
      some [⟨"p", [0], ⟨"k", "p", dumpGenerationsToJson [⟨"X", none⟩]⟩⟩] := by
      rw [dget_update_self]
      rfl
    have hm := matchedDocuments_single_below
      (⟨cosineSimilarity, fun _ => [0], id, 1/2⟩ : CacheCtx ℝ) _ "p" "k" _ hst
      (by
        show ¬ (1 : ℝ)/2 ≤ cosineSimilarity [0] [0]
        rw [hcos0]
        norm_num)
    exact lookup_fst_of_matched_nil _ _ "p" "k" hm

/-- Witness for C9 at a concrete two-record store: `k = 0` yields the empty
sequence, and `k = 5` (above the filtered count 2) yields all records. -/
theorem c9_search_boundary_cases_witness :
    similaritySearchVectorWithScore (fun _ e => e.headD (0 : ℚ))
        [⟨"a", [3], ()⟩, ⟨"b", [5], ()⟩] ([] : List ℚ) 0 none = [] ∧
      (similaritySearchVectorWithScore (fun _ e => e.headD (0 : ℚ))
          [⟨"a", [3], ()⟩, ⟨"b", [5], ()⟩] ([] : List ℚ) 5 none).Perm
        ((([⟨"a", [3], ()⟩, ⟨"b", [5], ()⟩] : List (MemoryVector ℚ Unit)).filter
            (filterFunction none)).map
          (fun v => (docOf v, v.embedding.headD (0 : ℚ)))) := by
  constructor
  · exact (c9_search_boundary_cases (fun _ e => e.headD (0 : ℚ))
      [⟨"a", [3], ()⟩, ⟨"b", [5], ()⟩] ([] : List ℚ) 0 none).1 (Or.inl rfl)
  · exact (c9_search_boundary_cases (fun _ e => e.headD (0 : ℚ))
      [⟨"a", [3], ()⟩, ⟨"b", [5], ()⟩] ([] : List ℚ) 5 none).2 (by decide)
